import Mathlib

/-!
Verification of the `get` pipeline of the hub-of-hubs kubectl plugins.

The development shallowly embeds the program logic of
`pkg/cmd/get/get.go` and `pkg/util/util.go`:

* JSON documents are the inductive `JValue` (Go's `encoding/json`
  generic values); input bytes that are not valid JSON are modelled as
  `Option.none`.
* Decoded Kubernetes runtime objects are `RuntimeObj`
  (`*metav1.Table`, `*unstructured.Unstructured`,
  `*unstructured.UnstructuredList`).
* Functions of external Kubernetes libraries whose source is not part
  of this repository (table-row sorting, object sorting, jsonpath
  parsing, URL parsing, printer construction) are parameters gathered
  in `Externals`; theorems quantify over them and state their needed
  success conditions explicitly.
-/

/-- A Go `encoding/json` generic value (an `interface{}` produced by
`json.Unmarshal`).  Object fields are kept in document order; lookup is
last-wins, as in Go's unmarshalling into `map[string]interface{}`.
Numbers keep their literal text, since no code path inspects numeric
values. -/
inductive JValue where
  | jnull : JValue
  | jbool (b : Bool) : JValue
  | jnum (lit : String) : JValue
  | jstr (s : String) : JValue
  | jarr (xs : List JValue) : JValue
  | jobj (fields : List (String × JValue)) : JValue
  deriving Repr

namespace JValue

/-- Last-wins field lookup, matching Go map unmarshalling where a later
duplicate key overwrites an earlier one. -/
def lookupField (fields : List (String × JValue)) (k : String) : Option JValue :=
  (fields.reverse).lookup k

/-- `unstructured.NestedString`-style read of a string field from an
object; any missing or non-string field reads as the empty string. -/
def getStringField (fields : List (String × JValue)) (k : String) : String :=
  match lookupField fields k with
  | some (jstr s) => s
  | _ => ""

/-- The `kind` of an unstructured content value (`Unstructured.GetKind`):
empty for a nil map (decoded JSON null) or a missing/non-string field. -/
def jKind : JValue → String
  | jobj fields => getStringField fields "kind"
  | _ => ""

/-- The `apiVersion` of an unstructured content value
(`Unstructured.GetAPIVersion`). -/
def jAPIVersion : JValue → String
  | jobj fields => getStringField fields "apiVersion"
  | _ => ""

/-- Replace the value of key `k` in an association list, appending when
absent. -/
def setAssoc (fields : List (String × JValue)) (k : String) (v : JValue) :
    List (String × JValue) :=
  if (fields.map Prod.fst).contains k then
    fields.map (fun p => if p.1 = k then (k, v) else p)
  else
    fields ++ [(k, v)]

/-- `unstructured.SetNestedField` on the top level: setting a field of a
nil map (decoded JSON null) first materialises an empty map. -/
def setField : JValue → String → JValue → JValue
  | jobj fields, k, v => jobj (setAssoc fields k v)
  | _, k, v => jobj [(k, v)]

/-- `delete(list.Object, "items")`: drop a key from an object. -/
def removeField (fields : List (String × JValue)) (k : String) :
    List (String × JValue) :=
  fields.filter (fun p => p.1 ≠ k)

end JValue

/-- Go `strings.TrimPrefix`, over the character list backing the
strings. -/
def goTrimPrefix (s pre : String) : String :=
  if pre.data.isPrefixOf s.data then ⟨s.data.drop pre.data.length⟩ else s

/-- Go `strings.TrimSuffix`, over the character list backing the
strings. -/
def goTrimSuffix (s suf : String) : String :=
  if suf.data.isSuffixOf s.data then ⟨s.data.take (s.data.length - suf.data.length)⟩ else s

/-- `strings.Split(s, ":")[0]`: the prefix before the first colon, the
whole string when there is none (`Split` of the empty string yields one
empty component). -/
def beforeFirstColon (s : String) : String :=
  ⟨s.data.takeWhile (fun c => c ≠ ':')⟩


/-- A decoded `runtime.Object` as the pipeline produces and consumes it:
either a server-side `*metav1.Table` (its serialised content kept
abstract as JSON), an `*unstructured.Unstructured` with its backing
content (`jnull` for a nil map), or an `*unstructured.UnstructuredList`
with its non-item content and its items (each an `Unstructured` backing
map). -/
inductive RuntimeObj where
  | table (content : JValue) : RuntimeObj
  | unstructured (content : JValue) : RuntimeObj
  | unstructuredList (content : JValue) (items : List JValue) : RuntimeObj
  deriving Repr

namespace RuntimeObj

instance : Inhabited RuntimeObj := ⟨unstructured .jnull⟩

/-- The Go type assertion `obj.(*metav1.Table)`. -/
def isTable : RuntimeObj → Bool
  | table _ => true
  | _ => false

/-- `GetObjectKind().GroupVersionKind().Kind` as used by the
unstructured JSON scheme's decode check (`metav1.Table` never reaches
that check, so its kind is irrelevant and read from its content). -/
def kind : RuntimeObj → String
  | table c => c.jKind
  | unstructured c => c.jKind
  | unstructuredList c _ => c.jKind

/-- `json.Marshal` of the object: an `Unstructured` serialises its
backing content, an `UnstructuredList` its content with the items put
back under `items`, and a `Table` its (abstract) serialised content. -/
def toJson : RuntimeObj → JValue
  | table c => c
  | unstructured c => c
  | unstructuredList c items => c.setField "items" (.jarr items)

/-- `meta.IsListType`: an `UnstructuredList` always is a list; an
`Unstructured` is one when its `items` field exists and is a JSON
array; a `Table` is not a list (it has no `Items` field). -/
def isListType : RuntimeObj → Bool
  | unstructuredList _ _ => true
  | unstructured (.jobj fields) =>
    match JValue.lookupField fields "items" with
    | some (.jarr _) => true
    | _ => false
  | _ => false

/-- `meta.ExtractList` followed by the `item.(*unstructured.Unstructured)`
assertions of `printGeneric`: an `UnstructuredList` yields its items; an
`Unstructured` yields the elements of its `items` array provided every
element is a JSON object; everything else is an error. -/
def extractList : RuntimeObj → Except Unit (List JValue)
  | unstructuredList _ items => .ok items
  | unstructured (.jobj fields) =>
    match JValue.lookupField fields "items" with
    | some (.jarr xs) =>
      if xs.all (fun x => x matches .jobj _) then .ok xs else .error ()
    | _ => .error ()
  | _ => .error ()

end RuntimeObj

/-- Failure cases of `runtime.Decode(unstructured.UnstructuredJSONScheme, data)`. -/
inductive DecodeErr where
  | cannotUnmarshal : DecodeErr
  | itemsNotArray : DecodeErr
  | itemNotObject : DecodeErr
  | missingKind : DecodeErr
  deriving Repr

/-- The per-item step of `unstructuredJSONScheme.decodeToList`: each raw
item must unmarshal into a map (a JSON object or null), and an item
carrying neither kind nor apiVersion inherits the list's, with the list
kind's `List` suffix trimmed (`SetKind` then `SetAPIVersion`). -/
def decodeListItem (itemKind listAPIVersion : String) (raw : JValue) :
    Except DecodeErr JValue :=
  match raw with
  | .jobj _ | .jnull =>
    if raw.jKind = "" ∧ raw.jAPIVersion = "" then
      .ok (((raw.setField "kind" (.jstr itemKind))).setField "apiVersion"
        (.jstr listAPIVersion))
    else
      .ok raw
  | _ => .error .itemNotObject

/-- Decode every raw item of a list in order, failing on the first bad
item, as the `decodeToList` loop does. -/
def decodeListItems (itemKind listAPIVersion : String) :
    List JValue → Except DecodeErr (List JValue)
  | [] => .ok []
  | raw :: rest =>
    match decodeListItem itemKind listAPIVersion raw with
    | .error e => .error e
    | .ok item =>
      match decodeListItems itemKind listAPIVersion rest with
      | .error e => .error e
      | .ok items => .ok (item :: items)

/-- `unstructuredJSONScheme.decodeToList` on an object whose `items`
field holds `itemsVal`: `items` must unmarshal into a slice of raw
messages (an array, or null for an empty slice); the list object keeps
the remaining fields with `items` deleted. -/
def decodeToList (fields : List (String × JValue)) (itemsVal : JValue) :
    Except DecodeErr RuntimeObj :=
  let rawItems : Except DecodeErr (List JValue) :=
    match itemsVal with
    | .jarr xs => .ok xs
    | .jnull => .ok []
    | _ => .error .itemsNotArray
  match rawItems with
  | .error e => .error e
  | .ok raws =>
    let listAPIVersion := JValue.getStringField fields "apiVersion"
    let listKind := JValue.getStringField fields "kind"
    let itemKind := goTrimSuffix listKind "List"
    match decodeListItems itemKind listAPIVersion raws with
    | .error e => .error e
    | .ok items => .ok (.unstructuredList (.jobj (JValue.removeField fields "items")) items)

/-- `runtime.Decode(unstructured.UnstructuredJSONScheme, data)`: the
`items` detector picks the list or single-object path (unmarshalling the
detector struct fails on any non-object, non-null JSON value, and an
`items` key of any value — even null — selects the list path), and the
decoded object must carry a non-empty kind. -/
def runtimeDecode (v : JValue) : Except DecodeErr RuntimeObj :=
  let decoded : Except DecodeErr RuntimeObj :=
    match v with
    | .jobj fields =>
      match JValue.lookupField fields "items" with
      | some itemsVal => decodeToList fields itemsVal
      | none => .ok (.unstructured v)
    | .jnull => .ok (.unstructured .jnull)
    | _ => .error .cannotUnmarshal
  match decoded with
  | .error e => .error e
  | .ok obj => if obj.kind = "" then .error .missingKind else .ok obj

/-- Failure cases of `getObjects`. -/
inductive GetObjectsErr where
  | unmarshalFailed : GetObjectsErr
  | decodeFailed (e : DecodeErr) : GetObjectsErr
  deriving Repr

/-- The decode loop of `getObjects`: each parsed result is re-marshalled
(the identity on our JSON model) and decoded through the unstructured
scheme, appending in order and stopping at the first failure. -/
def decodeAll : List JValue → Except GetObjectsErr (List RuntimeObj)
  | [] => .ok []
  | r :: rest =>
    match runtimeDecode r with
    | .error e => .error (.decodeFailed e)
    | .ok obj =>
      match decodeAll rest with
      | .error e => .error e
      | .ok objs => .ok (obj :: objs)

/-- `getObjects(rawBytes)`.  The input is the parse of the body bytes
(`none` when they are not valid JSON, in which case both `json.Unmarshal`
calls fail).  Unmarshalling into `[]interface{}` succeeds exactly on a
JSON array (its elements) or JSON null (a nil slice); any other valid
JSON value falls back to the single-value unmarshal and becomes a
one-element slice. -/
def getObjects (raw : Option JValue) : Except GetObjectsErr (List RuntimeObj) :=
  match raw with
  | none => .error .unmarshalFailed
  | some v =>
    let results : List JValue :=
      match v with
      | .jarr xs => xs
      | .jnull => []
      | _ => [v]
    decodeAll results


/-- A `clientcmdapi.Context`: the cluster and user it points at. -/
structure KubeContext where
  cluster : String
  authInfo : String
  deriving Repr

/-- A `clientcmdapi.Cluster`: only its server URL is read. -/
structure KubeCluster where
  server : String
  deriving Repr

/-- A `clientcmdapi.AuthInfo`: only its bearer token is read. -/
structure KubeAuthInfo where
  token : String
  deriving Repr

/-- A `clientcmdapi.Config`: the maps are association lists with unique
keys, looked up by name. -/
structure KubeConfig where
  currentContext : String
  contexts : List (String × KubeContext)
  clusters : List (String × KubeCluster)
  authInfos : List (String × KubeAuthInfo)
  deriving Repr

/-- Failures of `getServerURL`. -/
inductive ServerURLErr where
  | contextNotFound (name : String) : ServerURLErr
  | clusterNotFound (name : String) : ServerURLErr
  deriving Repr

/-- `util.getServerURL`: resolve the current context, then its cluster,
and return that cluster's server URL. -/
def getServerURL (config : KubeConfig) : Except ServerURLErr String :=
  match config.contexts.lookup config.currentContext with
  | none => .error (.contextNotFound config.currentContext)
  | some currentContext =>
    match config.clusters.lookup currentContext.cluster with
    | none => .error (.clusterNotFound currentContext.cluster)
    | some currentCluster => .ok currentCluster.server

/-- The part of a parsed `net/url.URL` that `GetNonK8sAPIURL` reads. -/
structure GoURL where
  host : String
  deriving Repr

/-- Failures of `util.GetNonK8sAPIURL`. -/
inductive NonK8sURLErr where
  | serverURLNotFound (inner : ServerURLErr) : NonK8sURLErr
  | unableToParse (msg : String) : NonK8sURLErr
  | unknownURLFormat (hostWithoutPort : String) : NonK8sURLErr
  deriving Repr

/-- `util.GetNonK8sAPIURL`, parametrised by the external `url.Parse`
(`parseURL`): look up the server URL, parse it, keep the host up to the
first colon, strip a leading `api.`, and reject an empty result. -/
def GetNonK8sAPIURL (parseURL : String → Except String GoURL)
    (config : KubeConfig) : Except NonK8sURLErr String :=
  match getServerURL config with
  | .error e => .error (.serverURLNotFound e)
  | .ok serverURLString =>
    match parseURL serverURLString with
    | .error msg => .error (.unableToParse msg)
    | .ok serverURL =>
      let hostWithoutPort := beforeFirstColon serverURL.host
      let nonK8sAPIURL := goTrimPrefix hostWithoutPort "api."
      if nonK8sAPIURL = "" then .error (.unknownURLFormat hostWithoutPort)
      else .ok nonK8sAPIURL

/-- Failures of `util.GetToken`. -/
inductive TokenErr where
  | contextNotFound (name : String) : TokenErr
  | authInfoNotFound (name : String) : TokenErr
  | noToken (name : String) : TokenErr
  deriving Repr

/-- `util.GetToken`: resolve the current context, then its auth info,
and return its token, rejecting an empty one. -/
def GetToken (config : KubeConfig) : Except TokenErr String :=
  match config.contexts.lookup config.currentContext with
  | none => .error (.contextNotFound config.currentContext)
  | some currentContext =>
    match config.authInfos.lookup currentContext.authInfo with
    | none => .error (.authInfoNotFound currentContext.authInfo)
    | some currentAuthInfo =>
      if currentAuthInfo.token = "" then .error (.noToken currentContext.authInfo)
      else .ok currentAuthInfo.token

/-- The credential part of `Options.Complete`: derive the non-K8s API
host and the bearer token from the raw kubeconfig, failing as either
helper fails. -/
def completeCreds (parseURL : String → Except String GoURL) (config : KubeConfig) :
    Except (NonK8sURLErr ⊕ TokenErr) (String × String) :=
  match GetNonK8sAPIURL parseURL config with
  | .error e => .error (.inl e)
  | .ok nonk8sAPIURL =>
    match GetToken config with
    | .error e => .error (.inr e)
    | .ok token => .ok (nonk8sAPIURL, token)

/-- The flag and argument inputs that `Options.Validate` reads. -/
structure ValidateInput where
  showLabels : Bool
  outputOption : String
  outputWatchEvents : Bool
  watch : Bool
  args : List String
  deriving Repr

/-- The errors `Options.Validate` can return. -/
inductive ValidateErr where
  | showLabelsWithPrinter (output : String) : ValidateErr
  | outputWatchEventsWithoutWatch : ValidateErr
  | onlyAllClustersSupported : ValidateErr
  deriving Repr, DecidableEq

/-- `Options.Validate`: the show-labels/printer check, then the
output-watch-events check, then the rejection of any positional
arguments; `none` means validation passed. -/
def Options.Validate (input : ValidateInput) : Option ValidateErr :=
  if input.showLabels ∧ input.outputOption ≠ "" ∧ input.outputOption ≠ "wide" then
    some (.showLabelsWithPrinter input.outputOption)
  else if input.outputWatchEvents ∧ ¬input.watch then
    some .outputWatchEventsWithoutWatch
  else if input.args.length > 0 then
    some .onlyAllClustersSupported
  else
    none


/-- Behaviour of the external Kubernetes libraries the pipeline
delegates to.  `tableSort` is `kubectlget.NewTableSorter(t, field)`
followed by its `Sort` (sorting the rows inside one table);
`sortObjects` is `kubectlget.SortObjects`, which reorders the object
slice in place and returns the original-position map; `relaxedParse` is
`kubectlget.RelaxedJSONPathExpression`; `toPrinterOk` is whether
`o.ToPrinter` builds a printer without error. -/
structure Externals where
  tableSort : String → JValue → Except String JValue
  sortObjects : String → List RuntimeObj → Except String (List RuntimeObj × (Nat → Nat))
  relaxedParse : String → Except String String
  toPrinterOk : Bool

/-- The positioner held by a `RuntimeSorter`: Go's nil interface value,
`*NopPositioner`, or the `*RuntimeSort` returned by `SortObjects`. -/
inductive Positioner where
  | nop : Positioner
  | fromSortObjects (p : Nat → Nat) : Positioner

/-- `RuntimeSorter` (`get.go`): the parsed sort field, the objects, and
the positioner installed by `Sort` (`none` models the nil interface). -/
structure RuntimeSorter where
  field : String
  objects : List RuntimeObj
  positioner : Option Positioner

/-- Errors of `RuntimeSorter.Sort`: one propagated from the external
sorters, or its own mixed-list error. -/
inductive SortErr where
  | external (msg : String) : SortErr
  | mixedTables : SortErr
  deriving Repr, DecidableEq

/-- The object loop of `RuntimeSorter.Sort`: sort the rows of each
`*metav1.Table` in order (stopping at the first table whose sort
errors), pass other objects through, and record whether any table and
whether any non-table object was seen. -/
def sortTablesLoop (tableSort : String → JValue → Except String JValue)
    (field : String) : List RuntimeObj → Except String (List RuntimeObj × Bool × Bool)
  | [] => .ok ([], false, false)
  | .table c :: rest =>
    match tableSort field c with
    | .error e => .error e
    | .ok c' =>
      match sortTablesLoop tableSort field rest with
      | .error e => .error e
      | .ok (objs, _, includesRuntimeObjs) =>
        .ok (.table c' :: objs, true, includesRuntimeObjs)
  | obj :: rest =>
    match sortTablesLoop tableSort field rest with
    | .error e => .error e
    | .ok (objs, includesTable, _) => .ok (obj :: objs, includesTable, true)

/-- `RuntimeSorter.Sort`: a list of 0 objects, or of 1 non-table object,
is already sorted and left untouched; otherwise each table's rows are
sorted in place and the positioner becomes `NopPositioner`; a mix of
tables and non-tables is an error; a list without tables is handed to
`SortObjects`, whose positioner replaces the nop one. -/
def RuntimeSorter.sortRun (ext : Externals) (r : RuntimeSorter) :
    Except SortErr RuntimeSorter :=
  if r.objects.length = 0 then .ok r
  else if r.objects.length = 1 ∧ ¬(r.objects.headD default).isTable then .ok r
  else
    match sortTablesLoop ext.tableSort r.field r.objects with
    | .error e => .error (.external e)
    | .ok (objs, includesTable, includesRuntimeObjs) =>
      if includesRuntimeObjs ∧ includesTable then .error .mixedTables
      else if includesTable then
        .ok { r with objects := objs, positioner := some .nop }
      else
        match ext.sortObjects r.field objs with
        | .error e => .error (.external e)
        | .ok (sorted, p) =>
          .ok { r with objects := sorted, positioner := some (.fromSortObjects p) }

/-- `RuntimeSorter.OriginalPosition`: 0 for a nil positioner, the index
itself for `NopPositioner`, and the recorded original position for a
`SortObjects` positioner. -/
def RuntimeSorter.originalPosition (r : RuntimeSorter) (ix : Nat) : Nat :=
  match r.positioner with
  | none => 0
  | some .nop => ix
  | some (.fromSortObjects p) => p ix

/-- `NewRuntimeSorter`: parse the sort flag through
`RelaxedJSONPathExpression`, falling back to the raw flag on a parse
error; the positioner starts out nil. -/
def newRuntimeSorter (ext : Externals) (objects : List RuntimeObj) (sortBy : String) :
    RuntimeSorter :=
  { field :=
      match ext.relaxedParse sortBy with
      | .ok parsedField => parsedField
      | .error _ => sortBy
    objects := objects
    positioner := none }

/-- The parts of the one `http.Request` that `Options.Run` builds. -/
structure HTTPRequest where
  method : String
  url : String
  headers : List (String × String)
  deriving Repr

/-- The part of the `http.Client` built by `createClient` that the
claims are about: its transport's TLS configuration. -/
structure HTTPClient where
  tlsInsecureSkipVerify : Bool
  deriving Repr

/-- `createClient`: a client over a transport whose TLS configuration
skips certificate verification (it never fails). -/
def createClient : HTTPClient :=
  { tlsInsecureSkipVerify := true }

/-- The option state that `Options.Run` reads (after `Complete` has
filled the derived endpoint and token). -/
structure RunOpts where
  ignoreNotFound : Bool
  isHumanReadablePrinter : Bool
  sort : Bool
  sortField : String
  serverPrint : Bool
  nonk8sAPIURL : String
  token : String
  resourcePath : String

/-- The single GET request issued by `Options.Run`: endpoint and
resource path spliced into the fixed URL template, a JSON content type,
the bearer token, and an accept header depending on server-side
printing. -/
def Options.runRequest (o : RunOpts) : HTTPRequest :=
  { method := "GET"
    url := o.nonk8sAPIURL ++ "/multicloud/hub-of-hubs-nonk8s-api/" ++ o.resourcePath
    headers :=
      [("Content-Type", "application/json"),
       ("Authorization", "Bearer " ++ o.token)] ++
      (if o.serverPrint then
        [("Accept", "application/json;as=Table;v=v1;g=meta.k8s.io,application/json")]
      else
        [("Accept", "application/json")]) }

/-- What `printGeneric` hands to the printer: nothing (early return),
one bare object, or an `unstructured.UnstructuredList` with kind `List`
and apiVersion `v1` holding the given items. -/
inductive PrintedGeneric where
  | nothing : PrintedGeneric
  | bare (obj : RuntimeObj) : PrintedGeneric
  | wrappedList (items : List JValue) : PrintedGeneric
  deriving Repr

/-- `json.Marshal` of the synthetic `corev1.List` built by
`printGeneric`: fixed kind `List`, apiVersion `v1`, empty list metadata,
and the marshalled objects under `items` (a nil slice marshals as
null). -/
def wrapList (objects : List RuntimeObj) : JValue :=
  .jobj [("kind", .jstr "List"), ("apiVersion", .jstr "v1"),
         ("metadata", .jobj []),
         ("items", match objects with
                   | [] => .jnull
                   | _ => .jarr (objects.map RuntimeObj.toJson))]

/-- `Options.printGeneric`: return silently on no objects with
ignore-not-found; fail if the printer cannot be built; coerce zero or
several objects into a synthetic `corev1.List` and re-decode it through
the unstructured scheme; then print a list object as a fresh
kind-`List`/`v1` display list of its extracted items, and anything else
bare. -/
def Options.printGeneric (toPrinterOk ignoreNotFound : Bool)
    (objects : List RuntimeObj) : Except Unit PrintedGeneric :=
  if objects.length = 0 ∧ ignoreNotFound then .ok .nothing
  else if ¬toPrinterOk then .error ()
  else
    let objE : Except Unit RuntimeObj :=
      if objects.length ≠ 1 then
        match runtimeDecode (wrapList objects) with
        | .error _ => .error ()
        | .ok converted => .ok converted
      else .ok (objects.headD default)
    match objE with
    | .error _ => .error ()
    | .ok obj =>
      if obj.isListType then
        match obj.extractList with
        | .error _ => .error ()
        | .ok items => .ok (.wrappedList items)
      else .ok (.bare obj)

/-- The HTTP response `Options.Run` receives for its one request: the
status code and the parse of the body bytes (`none` when the body is not
valid JSON). -/
structure Response where
  statusCode : Nat
  body : Option JValue

/-- The errors `Options.Run` can return. -/
inductive RunError where
  | statusNotOK (code : Nat) : RunError
  | getObjectsFailed (e : GetObjectsErr) : RunError
  | sortFailed (e : SortErr) : RunError
  | printerFailed : RunError
  | printGenericFailed : RunError
  deriving Repr

/-- The outcome of `Options.Run`: an error, the silent nil return of the
ignore-not-found shortcut, the generic (non-human-readable) print, or
the human-readable print of the listed objects in the order they were
handed to the printer. -/
inductive RunResult where
  | err (e : RunError) : RunResult
  | okIgnored : RunResult
  | okGeneric (p : PrintedGeneric) : RunResult
  | okPrinted (printed : List RuntimeObj) : RunResult
  deriving Repr

/-- The human-readable print loop of `Options.Run`:
`objs[positioner.OriginalPosition(ix)]` for each index when a positioner
is installed, `objs[ix]` otherwise. -/
def printLoop (objs : List RuntimeObj) (positioner : Option (Nat → Nat)) :
    List RuntimeObj :=
  (List.range objs.length).map fun ix =>
    match positioner with
    | some p => objs.getD (p ix) default
    | none => objs.getD ix default

/-- `Options.Run` after `client.Do` returned the response: the
ignore-not-found shortcut, the status check, body decoding through
`getObjects`, then either `printGeneric` or the sorter-driven
human-readable print loop. -/
def Options.Run (ext : Externals) (o : RunOpts) (resp : Response) : RunResult :=
  if o.ignoreNotFound ∧ resp.statusCode ≠ 404 then .okIgnored
  else if resp.statusCode ≠ 200 then .err (.statusNotOK resp.statusCode)
  else
    match getObjects resp.body with
    | .error e => .err (.getObjectsFailed e)
    | .ok objs =>
      if ¬o.isHumanReadablePrinter then
        match Options.printGeneric ext.toPrinterOk o.ignoreNotFound objs with
        | .error _ => .err .printGenericFailed
        | .ok p => .okGeneric p
      else
        let sorted : Except SortErr (Option RuntimeSorter) :=
          if o.sort then
            match (newRuntimeSorter ext objs o.sortField).sortRun ext with
            | .error e => .error e
            | .ok r => .ok (some r)
          else .ok none
        match sorted with
        | .error e => .err (.sortFailed e)
        | .ok sorterOpt =>
          if ¬ext.toPrinterOk then .err .printerFailed
          else
            match sorterOpt with
            | some r => .okPrinted (printLoop r.objects (some r.originalPosition))
            | none => .okPrinted (printLoop objs none)

/-! ### Concrete instances used by witnesses -/

/-- A trivial instantiation of the external libraries: row sorting and
object sorting keep everything in place and succeed, jsonpath parsing
echoes its input, and the printer builds fine. -/
def extId : Externals :=
  { tableSort := fun _ c => .ok c
    sortObjects := fun _ objs => .ok (objs, fun ix => ix)
    relaxedParse := fun s => .ok s
    toPrinterOk := true }

/-- A decoded managed-cluster payload. -/
def mcJson : JValue :=
  .jobj [("kind", .jstr "ManagedCluster"),
         ("apiVersion", .jstr "cluster.open-cluster-management.io/v1"),
         ("metadata", .jobj [("name", .jstr "cluster1")])]

/-- A second decoded managed-cluster payload. -/
def mcJson2 : JValue :=
  .jobj [("kind", .jstr "ManagedCluster"),
         ("apiVersion", .jstr "cluster.open-cluster-management.io/v1"),
         ("metadata", .jobj [("name", .jstr "cluster2")])]

/-- A baseline option state: default flags after `Complete` on a plain
`kubectl-mc get` invocation. -/
def optsBase : RunOpts :=
  { ignoreNotFound := false
    isHumanReadablePrinter := true
    sort := false
    sortField := ""
    serverPrint := true
    nonk8sAPIURL := "example.com"
    token := "sha256~abc"
    resourcePath := "managedclusters" }

/-- A kubeconfig with one context, cluster and token-carrying user. -/
def configBase : KubeConfig :=
  { currentContext := "ctx"
    contexts := [("ctx", ⟨"cl", "usr"⟩)]
    clusters := [("cl", ⟨"https://api.example.com:6443"⟩)]
    authInfos := [("usr", ⟨"sha256~abc"⟩)] }

/-- A URL parser answering with the given host, standing in for
`url.Parse` on witnesses' well-formed URLs. -/
def parseURLHost (host : String) : String → Except String GoURL :=
  fun _ => .ok ⟨host⟩

/-- Apply a table-row sort to a table object, leaving anything else
untouched, as the `RuntimeSorter.Sort` loop does. -/
def sortTableObj (f : JValue → JValue) : RuntimeObj → RuntimeObj
  | .table c => .table (f c)
  | obj => obj

/-! ### Helper lemmas -/

/-- Without a positioner the print loop reproduces the object list. -/
theorem printLoop_none (objs : List RuntimeObj) : printLoop objs none = objs := by
  unfold printLoop
  apply List.ext_getElem
  · simp
  · intro i h1 h2
    simp only [List.getElem_map, List.getElem_range]
    exact List.getD_eq_getElem objs default h2

/-- A successful `decodeAll` yields one object per input. -/
theorem decodeAll_ok_length {l : List JValue} {os : List RuntimeObj}
    (h : decodeAll l = .ok os) : os.length = l.length := by
  induction l generalizing os with
  | nil =>
    unfold decodeAll at h
    cases h
    rfl
  | cons x xs ih =>
    unfold decodeAll at h
    cases hx : runtimeDecode x with
    | error e => rw [hx] at h; cases h
    | ok o =>
      rw [hx] at h
      cases hr : decodeAll xs with
      | error e => rw [hr] at h; cases h
      | ok os' =>
        rw [hr] at h
        cases h
        simpa using ih hr

/-- A successful `decodeAll` decodes the `i`-th input into the `i`-th
output. -/
theorem decodeAll_ok_get {l : List JValue} {os : List RuntimeObj}
    (h : decodeAll l = .ok os) :
    ∀ i (hi : i < l.length) (hi' : i < os.length),
      runtimeDecode (l.get ⟨i, hi⟩) = .ok (os.get ⟨i, hi'⟩) := by
  induction l generalizing os with
  | nil => intro i hi; cases hi
  | cons x xs ih =>
    unfold decodeAll at h
    cases hx : runtimeDecode x with
    | error e => rw [hx] at h; cases h
    | ok o =>
      rw [hx] at h
      cases hr : decodeAll xs with
      | error e => rw [hr] at h; cases h
      | ok os' =>
        rw [hr] at h
        cases h
        intro i hi hi'
        cases i with
        | zero => simpa using hx
        | succ j => exact ih hr j (Nat.lt_of_succ_lt_succ hi) (Nat.lt_of_succ_lt_succ hi')

/-- `decodeAll` succeeds when every input decodes. -/
theorem decodeAll_ok_of_forall {l : List JValue}
    (h : ∀ x ∈ l, ∃ o, runtimeDecode x = .ok o) :
    ∃ os, decodeAll l = .ok os := by
  induction l with
  | nil => exact ⟨[], rfl⟩
  | cons x xs ih =>
    obtain ⟨o, ho⟩ := h x (List.mem_cons_self x xs)
    obtain ⟨os, hos⟩ := ih fun y hy => h y (List.mem_cons_of_mem x hy)
    exact ⟨o :: os, by unfold decodeAll; rw [ho, hos]⟩

/-! ### Claims -/

/-- Claim C1 (corrected): for a response whose status code is not
200 OK, provided the ignore-not-found shortcut does not fire first
(`IgnoreNotFound` unset, or a 404 status), `Options.Run` returns the
error wrapping `errStatusNotOK` together with the received status code
and neither decodes nor prints the body (the result is the bare error,
with no printed payload). -/
theorem run_statusNotOK (ext : Externals) (o : RunOpts) (resp : Response)
    (hstatus : resp.statusCode ≠ 200)
    (hinf : o.ignoreNotFound = false ∨ resp.statusCode = 404) :
    Options.Run ext o resp = .err (.statusNotOK resp.statusCode) := by
  rcases hinf with h | h <;> simp [Options.Run, hstatus, h]

/-- Witness for C1: a plain (ignore-not-found unset) invocation meeting
a 500 response returns the status error. -/
theorem run_statusNotOK_witness :
    Options.Run extId optsBase ⟨500, none⟩ = .err (.statusNotOK 500) :=
  run_statusNotOK extId optsBase ⟨500, none⟩ (by decide) (Or.inl rfl)

/-- Counterexample for C1 as stated: with `IgnoreNotFound` set, a 500
response makes `Options.Run` return nil through the early shortcut, not
the `errStatusNotOK` error the claim demands for every non-200
response. -/
theorem run_statusNotOK_counterexample :
    Options.Run extId { optsBase with ignoreNotFound := true } ⟨500, none⟩ =
      .okIgnored ∧
    RunResult.okIgnored ≠ RunResult.err (.statusNotOK 500) :=
  ⟨rfl, fun h => RunResult.noConfusion h⟩

/-- Claim C8 (confirmed): with `IgnoreNotFound` set, `Options.Run`
returns nil without reading, decoding or printing the body for every
non-404 response (200 OK included), while a 404 response falls through
to the status check and yields the non-OK error. -/
theorem run_ignoreNotFound (ext : Externals) (o : RunOpts) (resp : Response)
    (h : o.ignoreNotFound = true) :
    (resp.statusCode ≠ 404 → Options.Run ext o resp = .okIgnored) ∧
    (resp.statusCode = 404 → Options.Run ext o resp = .err (.statusNotOK 404)) := by
  constructor <;> intro hs <;> simp [Options.Run, h, hs]

/-- Witness for C8: with `IgnoreNotFound` set, a 200 OK response is
silently dropped and a 404 response yields the status error. -/
theorem run_ignoreNotFound_witness :
    Options.Run extId { optsBase with ignoreNotFound := true } ⟨200, some mcJson⟩ =
      .okIgnored ∧
    Options.Run extId { optsBase with ignoreNotFound := true } ⟨404, none⟩ =
      .err (.statusNotOK 404) :=
  ⟨(run_ignoreNotFound extId _ _ rfl).1 (by decide),
   (run_ignoreNotFound extId _ _ rfl).2 rfl⟩

/-- Claim C9 (corrected): a non-empty positional argument list always
makes `Options.Validate` fail — so a named cluster never reaches the
HTTP request — but the failure is the only-all-clusters usage error only
when the earlier show-labels and output-watch-events validations pass;
otherwise their error is returned first. -/
theorem validate_args (input : ValidateInput) (h : input.args ≠ []) :
    (Options.Validate input).isSome = true ∧
    (¬(input.showLabels = true ∧ input.outputOption ≠ "" ∧ input.outputOption ≠ "wide") →
     ¬(input.outputWatchEvents = true ∧ input.watch = false) →
     Options.Validate input = some .onlyAllClustersSupported) := by
  have hlen : input.args.length > 0 := List.length_pos.mpr h
  constructor
  · unfold Options.Validate
    split
    · rfl
    · split
      · rfl
      · simp [hlen]
  · intro h1 h2
    unfold Options.Validate
    rw [if_neg (by simpa using h1), if_neg (by simpa using h2), if_pos hlen]

/-- Witness for C9: with the earlier checks passing, one positional
argument draws the only-all-clusters usage error. -/
theorem validate_args_witness :
    (Options.Validate ⟨false, "", false, false, ["mycluster"]⟩).isSome = true ∧
    Options.Validate ⟨false, "", false, false, ["mycluster"]⟩ =
      some .onlyAllClustersSupported :=
  ⟨(validate_args _ (by decide)).1,
   (validate_args _ (by decide)).2 (by simp) (by simp)⟩

/-- Counterexample for C9 as stated: with `--show-labels` and
`-o json`, a non-empty argument list draws the show-labels error, not
the only-all-clusters usage error the claim promises for every non-empty
argument list. -/
theorem validate_args_counterexample :
    Options.Validate ⟨true, "json", false, false, ["mycluster"]⟩ =
      some (.showLabelsWithPrinter "json") ∧
    some (ValidateErr.showLabelsWithPrinter "json") ≠
      some ValidateErr.onlyAllClustersSupported := by
  constructor
  · decide
  · decide

/-- Claim C3 (confirmed): when the current context and its cluster
resolve and the server URL parses, `GetNonK8sAPIURL` returns the URL's
host truncated at the first colon (removing any port) with a leading
`api.` stripped, and it errors when the context is missing, the cluster
is missing, the URL does not parse, or the derived hostname is empty.
`url.Parse` is external; the theorem holds for every parser
behaviour. -/
theorem getNonK8sAPIURL_spec (parseURL : String → Except String GoURL)
    (config : KubeConfig) :
    (config.contexts.lookup config.currentContext = none →
      GetNonK8sAPIURL parseURL config =
        .error (.serverURLNotFound (.contextNotFound config.currentContext))) ∧
    (∀ ctx, config.contexts.lookup config.currentContext = some ctx →
      config.clusters.lookup ctx.cluster = none →
      GetNonK8sAPIURL parseURL config =
        .error (.serverURLNotFound (.clusterNotFound ctx.cluster))) ∧
    (∀ ctx cl msg, config.contexts.lookup config.currentContext = some ctx →
      config.clusters.lookup ctx.cluster = some cl →
      parseURL cl.server = .error msg →
      GetNonK8sAPIURL parseURL config = .error (.unableToParse msg)) ∧
    (∀ ctx cl u, config.contexts.lookup config.currentContext = some ctx →
      config.clusters.lookup ctx.cluster = some cl →
      parseURL cl.server = .ok u →
      goTrimPrefix (beforeFirstColon u.host) "api." = "" →
      GetNonK8sAPIURL parseURL config =
        .error (.unknownURLFormat (beforeFirstColon u.host))) ∧
    (∀ ctx cl u, config.contexts.lookup config.currentContext = some ctx →
      config.clusters.lookup ctx.cluster = some cl →
      parseURL cl.server = .ok u →
      goTrimPrefix (beforeFirstColon u.host) "api." ≠ "" →
      GetNonK8sAPIURL parseURL config =
        .ok (goTrimPrefix (beforeFirstColon u.host) "api.")) := by
  refine ⟨?_, ?_, ?_, ?_, ?_⟩
  · intro h
    simp [GetNonK8sAPIURL, getServerURL, h]
  · intro ctx h1 h2
    simp [GetNonK8sAPIURL, getServerURL, h1, h2]
  · intro ctx cl msg h1 h2 h3
    simp [GetNonK8sAPIURL, getServerURL, h1, h2, h3]
  · intro ctx cl u h1 h2 h3 h4
    simp [GetNonK8sAPIURL, getServerURL, h1, h2, h3, h4]
  · intro ctx cl u h1 h2 h3 h4
    simp [GetNonK8sAPIURL, getServerURL, h1, h2, h3, h4]

/-- Witness for C3: a kubeconfig pointing at
`https://api.example.com:6443` derives the endpoint `example.com`. -/
theorem getNonK8sAPIURL_witness :
    GetNonK8sAPIURL (parseURLHost "api.example.com:6443") configBase =
      .ok "example.com" :=
  (getNonK8sAPIURL_spec (parseURLHost "api.example.com:6443") configBase).2.2.2.2
    ⟨"cl", "usr"⟩ ⟨"https://api.example.com:6443"⟩ ⟨"api.example.com:6443"⟩
    rfl rfl rfl (by decide)

/-- Claim C4 (confirmed): `Options.Run` builds its single request as a
GET to `<derived endpoint>/multicloud/hub-of-hubs-nonk8s-api/<resource
path>`, carries the bearer token that `Complete` extracted from the
kubeconfig via `GetToken`, and `createClient` configures the TLS client
to skip certificate verification.  The shallow model gives `Run` exactly
one request and one response, matching the single `client.Do` call of
the source. -/
theorem run_request_spec (parseURL : String → Except String GoURL)
    (config : KubeConfig) (o : RunOpts) (u t : String)
    (hc : completeCreds parseURL config = .ok (u, t))
    (hu : o.nonk8sAPIURL = u) (ht : o.token = t) :
    GetNonK8sAPIURL parseURL config = .ok u ∧
    GetToken config = .ok t ∧
    (Options.runRequest o).method = "GET" ∧
    (Options.runRequest o).url =
      u ++ "/multicloud/hub-of-hubs-nonk8s-api/" ++ o.resourcePath ∧
    ("Authorization", "Bearer " ++ t) ∈ (Options.runRequest o).headers ∧
    createClient.tlsInsecureSkipVerify = true := by
  subst hu ht
  unfold completeCreds at hc
  cases h1 : GetNonK8sAPIURL parseURL config with
  | error e => rw [h1] at hc; cases hc
  | ok nurl =>
    rw [h1] at hc
    cases h2 : GetToken config with
    | error e => rw [h2] at hc; cases hc
    | ok tok =>
      rw [h2] at hc
      cases hc
      refine ⟨rfl, rfl, rfl, rfl, ?_, rfl⟩
      by_cases hs : o.serverPrint = true <;>
        simp [Options.runRequest, hs]

/-- Witness for C4: the baseline options derived from the witness
kubeconfig produce the expected URL, bearer header and TLS setting. -/
theorem run_request_spec_witness :
    GetNonK8sAPIURL (parseURLHost "api.example.com:6443") configBase =
      .ok "example.com" ∧
    GetToken configBase = .ok "sha256~abc" ∧
    (Options.runRequest optsBase).method = "GET" ∧
    (Options.runRequest optsBase).url =
      "example.com" ++ "/multicloud/hub-of-hubs-nonk8s-api/" ++
        optsBase.resourcePath ∧
    ("Authorization", "Bearer " ++ "sha256~abc") ∈
      (Options.runRequest optsBase).headers ∧
    createClient.tlsInsecureSkipVerify = true :=
  run_request_spec (parseURLHost "api.example.com:6443") configBase optsBase
    "example.com" "sha256~abc" rfl rfl rfl

/-- Claim C2 (corrected): bytes that are not valid JSON make
`getObjects` fail with no objects; a JSON array yields one runtime
object per element in order, and succeeds exactly when every element
decodes through the unstructured scheme (a JSON object carrying a kind);
a non-array, non-null JSON value that decodes becomes a one-element
list; and JSON null — which Go unmarshals into a nil slice — yields the
empty list, not a one-element one. -/
theorem getObjects_spec :
    (getObjects none = .error .unmarshalFailed) ∧
    (∀ xs objs, getObjects (some (.jarr xs)) = .ok objs →
      objs.length = xs.length ∧
      ∀ i (hi : i < xs.length) (hi' : i < objs.length),
        runtimeDecode (xs.get ⟨i, hi⟩) = .ok (objs.get ⟨i, hi'⟩)) ∧
    (∀ xs, (∀ x ∈ xs, ∃ o, runtimeDecode x = .ok o) →
      ∃ objs, getObjects (some (.jarr xs)) = .ok objs) ∧
    (∀ v obj, (∀ xs, v ≠ .jarr xs) → v ≠ .jnull → runtimeDecode v = .ok obj →
      getObjects (some v) = .ok [obj]) ∧
    (getObjects (some .jnull) = .ok []) := by
  refine ⟨rfl, ?_, ?_, ?_, rfl⟩
  · intro xs objs h
    exact ⟨decodeAll_ok_length h, decodeAll_ok_get h⟩
  · intro xs h
    exact decodeAll_ok_of_forall h
  · intro v obj hnarr hnnull hdec
    have : getObjects (some v) = decodeAll [v] := by
      unfold getObjects
      cases v with
      | jarr xs => exact absurd rfl (hnarr xs)
      | jnull => exact absurd rfl hnnull
      | jbool b => rfl
      | jnum lit => rfl
      | jstr s => rfl
      | jobj fields => rfl
    rw [this]
    unfold decodeAll
    rw [hdec]
    rfl

/-- Witness for C2: a single managed-cluster object decodes into a
one-element list, and a two-element array decodes elementwise in
order. -/
theorem getObjects_spec_witness :
    getObjects (some mcJson) = .ok [.unstructured mcJson] ∧
    getObjects (some (.jarr [mcJson, mcJson2])) =
      .ok [.unstructured mcJson, .unstructured mcJson2] := by
  constructor
  · exact getObjects_spec.2.2.2.1 mcJson (.unstructured mcJson)
      (fun xs h => by cases h) (fun h => by cases h) rfl
  · rfl

/-- Counterexample for C2 as stated: the valid JSON document `null` is
not an array, yet `getObjects` returns the empty list — not the
one-element list the claim requires for every non-array JSON value. -/
theorem getObjects_counterexample :
    getObjects (some .jnull) = .ok [] ∧
    ([] : List RuntimeObj).length ≠ 1 :=
  ⟨rfl, by decide⟩

/-- When every table in the list sorts successfully (with `f` naming the
sorted contents), the `Sort` loop returns the list with each table's
rows sorted, and flags exactly whether any table and any non-table
object was present. -/
theorem sortTablesLoop_ok (ts : String → JValue → Except String JValue)
    (field : String) (f : JValue → JValue) (l : List RuntimeObj)
    (hf : ∀ c, RuntimeObj.table c ∈ l → ts field c = .ok (f c)) :
    sortTablesLoop ts field l =
      .ok (l.map (sortTableObj f), l.any RuntimeObj.isTable,
           l.any (fun o => !o.isTable)) := by
  induction l with
  | nil => rfl
  | cons o rest ih =>
    have hrest : ∀ c, RuntimeObj.table c ∈ rest → ts field c = .ok (f c) :=
      fun c hc => hf c (List.mem_cons_of_mem o hc)
    cases o with
    | table c =>
      have hc := hf c (List.mem_cons_self _ _)
      simp [sortTablesLoop, hc, ih hrest, sortTableObj, RuntimeObj.isTable]
    | unstructured c =>
      simp [sortTablesLoop, ih hrest, sortTableObj, RuntimeObj.isTable]
    | unstructuredList c items =>
      simp [sortTablesLoop, ih hrest, sortTableObj, RuntimeObj.isTable]

/-- Claim C6 (confirmed): provided every table's rows sort without
error (the external `kubectlget` table sorter is abstract, so its
success is hypothesised), a list holding both a `metav1.Table` and a
non-Table object makes `RuntimeSorter.Sort` return the
mixed-lists-unsupported error, while a non-empty list of only Tables
sorts the rows inside each table and installs the `NopPositioner`, which
is the identity. -/
theorem runtimeSorter_sort_tables (ext : Externals) (r : RuntimeSorter)
    (f : JValue → JValue)
    (hf : ∀ c, RuntimeObj.table c ∈ r.objects → ext.tableSort r.field c = .ok (f c)) :
    ((∃ c, RuntimeObj.table c ∈ r.objects) →
     (∃ o ∈ r.objects, o.isTable = false) →
     r.sortRun ext = .error .mixedTables) ∧
    (r.objects ≠ [] → (∀ o ∈ r.objects, o.isTable = true) →
     ∃ r', r.sortRun ext = .ok r' ∧
       r'.objects = r.objects.map (sortTableObj f) ∧
       r'.positioner = some .nop ∧
       ∀ ix, r'.originalPosition ix = ix) := by
  constructor
  · rintro ⟨c, hct⟩ ⟨o, ho, hno⟩
    have hne : r.objects ≠ [] := by
      intro h
      rw [h] at hct
      cases hct
    have hnot1 : ¬(r.objects.length = 1 ∧ ¬(r.objects.headD default).isTable = true) := by
      rintro ⟨h1, -⟩
      obtain ⟨x, hx⟩ := List.length_eq_one.mp h1
      rw [hx] at hct ho
      have hc : RuntimeObj.table c = x := List.mem_singleton.mp hct
      have ho' : o = x := List.mem_singleton.mp ho
      rw [ho', ← hc] at hno
      cases hno
    have hT : r.objects.any RuntimeObj.isTable = true :=
      List.any_eq_true.mpr ⟨RuntimeObj.table c, hct, rfl⟩
    have hR : r.objects.any (fun o => !o.isTable) = true :=
      List.any_eq_true.mpr ⟨o, ho, by rw [hno]; rfl⟩
    unfold RuntimeSorter.sortRun
    rw [if_neg (by simpa [List.length_eq_zero] using hne), if_neg hnot1,
      sortTablesLoop_ok ext.tableSort r.field f r.objects hf]
    simp [hT, hR]
  · intro hne hall
    have hT : r.objects.any RuntimeObj.isTable = true := by
      cases hobjs : r.objects with
      | nil => exact absurd hobjs hne
      | cons x xs =>
        exact List.any_eq_true.mpr ⟨x, List.mem_cons_self x xs,
          hall x (by rw [hobjs]; exact List.mem_cons_self x xs)⟩
    have hR : r.objects.any (fun o => !o.isTable) = false := by
      rw [List.any_eq_false]
      intro o ho
      simp [hall o ho]
    have hnot1 : ¬(r.objects.length = 1 ∧ ¬(r.objects.headD default).isTable = true) := by
      rintro ⟨h1, hhead⟩
      obtain ⟨x, hx⟩ := List.length_eq_one.mp h1
      apply hhead
      rw [hx]
      exact hall x (by rw [hx]; exact List.mem_cons_self _ _)
    refine ⟨{ r with objects := r.objects.map (sortTableObj f), positioner := some .nop },
      ?_, rfl, rfl, fun ix => rfl⟩
    unfold RuntimeSorter.sortRun
    rw [if_neg (by simpa [List.length_eq_zero] using hne), if_neg hnot1,
      sortTablesLoop_ok ext.tableSort r.field f r.objects hf]
    simp [hT, hR]

/-- Witness for C6: with in-place row sorting, a table next to an
unstructured object draws the mixed-list error, and a single-table list
sorts and installs the nop positioner. -/
theorem runtimeSorter_sort_tables_witness :
    RuntimeSorter.sortRun extId
      ⟨"f", [.table (.jobj [("kind", .jstr "Table")]), .unstructured mcJson], none⟩ =
      .error .mixedTables ∧
    RuntimeSorter.sortRun extId
      ⟨"f", [.table (.jobj [("kind", .jstr "Table")])], none⟩ =
      .ok ⟨"f", [.table (.jobj [("kind", .jstr "Table")])], some .nop⟩ := by
  constructor
  · exact (runtimeSorter_sort_tables extId
      ⟨"f", [.table (.jobj [("kind", .jstr "Table")]), .unstructured mcJson], none⟩
      id (fun c _ => rfl)).1
      ⟨.jobj [("kind", .jstr "Table")], List.mem_cons_self _ _⟩
      ⟨.unstructured mcJson, by simp, rfl⟩
  · rfl

/-- Claim C7 (confirmed): `RuntimeSorter.Sort` on an empty list, or on a
one-element list whose element is not a `metav1.Table`, returns nil with
the sorter untouched, so with the initial nil positioner a subsequent
`OriginalPosition` returns 0 for any index. -/
theorem runtimeSorter_sort_trivial (ext : Externals) (r : RuntimeSorter)
    (hpos : r.positioner = none)
    (h : r.objects = [] ∨ ∃ o, r.objects = [o] ∧ o.isTable = false) :
    r.sortRun ext = .ok r ∧ ∀ ix, r.originalPosition ix = 0 := by
  constructor
  · unfold RuntimeSorter.sortRun
    rcases h with h | ⟨o, ho, hno⟩
    · rw [if_pos (by simp [h])]
    · rw [if_neg (by simp [ho]), if_pos (by simp [ho, hno])]
  · intro ix
    unfold RuntimeSorter.originalPosition
    rw [hpos]

/-- Witness for C7: a sorter over one unstructured managed cluster is
left untouched and reports original position 0. -/
theorem runtimeSorter_sort_trivial_witness :
    RuntimeSorter.sortRun extId ⟨"f", [.unstructured mcJson], none⟩ =
      .ok ⟨"f", [.unstructured mcJson], none⟩ ∧
    RuntimeSorter.originalPosition ⟨"f", [.unstructured mcJson], none⟩ 7 = 0 :=
  ⟨(runtimeSorter_sort_trivial extId ⟨"f", [.unstructured mcJson], none⟩ rfl
      (Or.inr ⟨.unstructured mcJson, rfl, rfl⟩)).1,
   (runtimeSorter_sort_trivial extId ⟨"f", [.unstructured mcJson], none⟩ rfl
      (Or.inr ⟨.unstructured mcJson, rfl, rfl⟩)).2 7⟩

/-- Claim C5 (confirmed): on a 200 response whose body decodes, in the
human-readable path with a working printer, `Options.Run` hands the
records to the printer exactly in decode order when no sort was
requested, and in the order `objs[positioner.OriginalPosition(ix)]`
determined by the `RuntimeSorter`'s positioner when sorting was
requested and succeeded. -/
theorem run_print_order (ext : Externals) (o : RunOpts) (resp : Response)
    (objs : List RuntimeObj)
    (hinf : o.ignoreNotFound = false) (hstatus : resp.statusCode = 200)
    (hhuman : o.isHumanReadablePrinter = true) (hprinter : ext.toPrinterOk = true)
    (hobjs : getObjects resp.body = .ok objs) :
    (o.sort = false → Options.Run ext o resp = .okPrinted objs) ∧
    (∀ r, o.sort = true →
      (newRuntimeSorter ext objs o.sortField).sortRun ext = .ok r →
      Options.Run ext o resp = .okPrinted
        ((List.range r.objects.length).map fun ix =>
          r.objects.getD (r.originalPosition ix) default)) := by
  constructor
  · intro hsort
    rw [← printLoop_none objs]
    simp [Options.Run, hinf, hstatus, hhuman, hprinter, hobjs, hsort]
  · intro r hsort hr
    have : printLoop r.objects (some r.originalPosition) =
        (List.range r.objects.length).map fun ix =>
          r.objects.getD (r.originalPosition ix) default := rfl
    rw [← this]
    simp [Options.Run, hinf, hstatus, hhuman, hprinter, hobjs, hsort, hr]

/-- Witness for C5: one decoded record is printed as is without
sorting, and with `--sort-by` the trivially-sorted single record is
printed through the positioner. -/
theorem run_print_order_witness :
    Options.Run extId optsBase ⟨200, some mcJson⟩ =
      .okPrinted [.unstructured mcJson] ∧
    Options.Run extId { optsBase with sort := true, sortField := "x" }
        ⟨200, some mcJson⟩ =
      .okPrinted [.unstructured mcJson] :=
  ⟨(run_print_order extId optsBase ⟨200, some mcJson⟩ [.unstructured mcJson]
      rfl rfl rfl rfl rfl).1 rfl,
   (run_print_order extId { optsBase with sort := true, sortField := "x" }
      ⟨200, some mcJson⟩ [.unstructured mcJson] rfl rfl rfl rfl rfl).2
      ⟨"x", [.unstructured mcJson], none⟩ rfl rfl⟩

/-- Items that are JSON objects already carrying a kind pass through
the `decodeToList` item loop unchanged: the decode succeeds and the
kind/apiVersion inheritance never fires. -/
theorem decodeListItems_id (itemKind listAPIVersion : String) (items : List JValue)
    (h : ∀ x ∈ items, (∃ fs, x = .jobj fs) ∧ x.jKind ≠ "") :
    decodeListItems itemKind listAPIVersion items = .ok items := by
  induction items with
  | nil => rfl
  | cons x rest ih =>
    obtain ⟨⟨fs, hx⟩, hk⟩ := h x (List.mem_cons_self x rest)
    have hrest := ih fun y hy => h y (List.mem_cons_of_mem x hy)
    subst hx
    unfold decodeListItems decodeListItem
    rw [if_neg (fun hc => hk hc.1)]
    simp only []
    rw [hrest]

/-- Decoding the marshalled synthetic `corev1.List` of objects whose
serialisations are kind-carrying JSON objects yields the
`UnstructuredList` with exactly those serialisations as items, in
order. -/
theorem runtimeDecode_wrapList (objects : List RuntimeObj)
    (h : ∀ o ∈ objects, (∃ fs, o.toJson = .jobj fs) ∧ (o.toJson).jKind ≠ "") :
    runtimeDecode (wrapList objects) =
      .ok (.unstructuredList
        (.jobj [("kind", .jstr "List"), ("apiVersion", .jstr "v1"),
                ("metadata", .jobj [])])
        (objects.map RuntimeObj.toJson)) := by
  have hitems : decodeListItems "" "v1" (objects.map RuntimeObj.toJson) =
      .ok (objects.map RuntimeObj.toJson) := by
    apply decodeListItems_id
    intro x hx
    obtain ⟨o, ho, hxo⟩ := List.mem_map.mp hx
    rw [← hxo]
    exact h o ho
  cases objects with
  | nil => rfl
  | cons o rest =>
    unfold runtimeDecode wrapList
    simp only []
    rw [show JValue.lookupField
        [("kind", JValue.jstr "List"), ("apiVersion", JValue.jstr "v1"),
         ("metadata", JValue.jobj []),
         ("items", JValue.jarr ((o :: rest).map RuntimeObj.toJson))] "items" =
        some (.jarr ((o :: rest).map RuntimeObj.toJson)) from rfl]
    unfold decodeToList
    simp only []
    rw [show goTrimSuffix (JValue.getStringField
        [("kind", JValue.jstr "List"), ("apiVersion", JValue.jstr "v1"),
         ("metadata", JValue.jobj []),
         ("items", JValue.jarr ((o :: rest).map RuntimeObj.toJson))] "kind") "List" =
        "" from rfl]
    rw [show JValue.getStringField
        [("kind", JValue.jstr "List"), ("apiVersion", JValue.jstr "v1"),
         ("metadata", JValue.jobj []),
         ("items", JValue.jarr ((o :: rest).map RuntimeObj.toJson))] "apiVersion" =
        "v1" from rfl]
    rw [hitems]
    rfl

/-- Claim C10 (corrected): with a working printer, `printGeneric` wraps
zero or two-or-more decoded objects into a synthetic `List` (kind
`List`, apiVersion `v1`) preserving their order as items — except that
zero objects under `IgnoreNotFound` print nothing at all — and prints a
single decoded object bare exactly when that object is not itself a
list; a single list object instead has its items extracted and printed
as a synthetic `List`. -/
theorem printGeneric_spec (toPrinterOk ignoreNotFound : Bool)
    (objects : List RuntimeObj) (hp : toPrinterOk = true)
    (h : ∀ o ∈ objects, (∃ fs, o.toJson = .jobj fs) ∧ (o.toJson).jKind ≠ "") :
    (objects.length ≠ 1 → (ignoreNotFound = false ∨ objects ≠ []) →
      Options.printGeneric toPrinterOk ignoreNotFound objects =
        .ok (.wrappedList (objects.map RuntimeObj.toJson))) ∧
    (∀ obj, objects = [obj] → obj.isListType = false →
      Options.printGeneric toPrinterOk ignoreNotFound objects = .ok (.bare obj)) ∧
    (∀ obj items, objects = [obj] → obj.isListType = true →
      obj.extractList = .ok items →
      Options.printGeneric toPrinterOk ignoreNotFound objects =
        .ok (.wrappedList items)) := by
  subst hp
  refine ⟨?_, ?_, ?_⟩
  · intro h1 h2
    have hearly : ¬(objects.length = 0 ∧ ignoreNotFound = true) := by
      rcases h2 with h2 | h2
      · rintro ⟨-, hi⟩; rw [h2] at hi; cases hi
      · rintro ⟨hl, -⟩; exact h2 (List.length_eq_zero.mp hl)
    unfold Options.printGeneric
    rw [if_neg hearly, if_neg (by simp), if_pos h1, runtimeDecode_wrapList objects h]
    rfl
  · intro obj hobj hnl
    subst hobj
    unfold Options.printGeneric
    rw [if_neg (by simp), if_neg (by simp), if_neg (by simp)]
    simp only [List.headD]
    rw [hnl]
    rfl
  · intro obj items hobj hl hex
    subst hobj
    unfold Options.printGeneric
    rw [if_neg (by simp), if_neg (by simp), if_neg (by simp)]
    simp only [List.headD]
    rw [hl]
    simp only []
    rw [hex]
    simp

/-- Witness for C10: two managed-cluster objects are wrapped in order
into the synthetic list, and a single non-list object is printed
bare. -/
theorem printGeneric_spec_witness :
    Options.printGeneric true false [.unstructured mcJson, .unstructured mcJson2] =
      .ok (.wrappedList [mcJson, mcJson2]) ∧
    Options.printGeneric true false [.unstructured mcJson] =
      .ok (.bare (.unstructured mcJson)) := by
  have hmem : ∀ o ∈ [RuntimeObj.unstructured mcJson, RuntimeObj.unstructured mcJson2],
      (∃ fs, o.toJson = .jobj fs) ∧ (o.toJson).jKind ≠ "" := by
    intro o ho
    rcases List.mem_cons.mp ho with h1 | h1
    · subst h1; exact ⟨⟨_, rfl⟩, by decide⟩
    · rcases List.mem_cons.mp h1 with h2 | h2
      · subst h2; exact ⟨⟨_, rfl⟩, by decide⟩
      · cases h2
  have hmem1 : ∀ o ∈ [RuntimeObj.unstructured mcJson],
      (∃ fs, o.toJson = .jobj fs) ∧ (o.toJson).jKind ≠ "" := by
    intro o ho
    rcases List.mem_cons.mp ho with h1 | h1
    · subst h1; exact ⟨⟨_, rfl⟩, by decide⟩
    · cases h1
  constructor
  · exact (printGeneric_spec true false _ rfl hmem).1 (by decide) (Or.inl rfl)
  · exact (printGeneric_spec true false _ rfl hmem1).2.1 (.unstructured mcJson) rfl rfl

/-- Counterexample for C10 as stated: zero decoded objects with
`IgnoreNotFound` set make `printGeneric` return before any printer runs,
printing nothing — not the synthetic empty `List` the claim requires
whenever there are zero objects. -/
theorem printGeneric_counterexample :
    Options.printGeneric true true [] = .ok .nothing ∧
    PrintedGeneric.nothing ≠ PrintedGeneric.wrappedList [] :=
  ⟨rfl, fun h => PrintedGeneric.noConfusion h⟩
